import Mathlib

/-!
Shallow embedding of the release-notes pipeline
(`src/mastra/workflows/releaseNotesWorkflow.ts`) and of the HTTP endpoint
(`server.ts`).  External language-model calls are modelled as oracle
parameters; every deterministic piece of the pipeline is translated from
the source.
-/

namespace ReleaseNotes

/-- The seven commit types from `commitSchema`
(`z.enum(["feat","fix","perf","chore","docs","refactor","test"])`). -/
inductive CommitType where
  | feat | fix | perf | chore | docs | refactor | test
deriving DecidableEq, Repr

/-- The `commitSchema` record: `{sha, type, message, breaking}`. -/
structure ClassifiedCommit where
  sha : String
  type : CommitType
  message : String
  breaking : Bool
deriving DecidableEq, Repr

/-- An element of the hardcoded `REPO_COMMITS` list: `{sha, raw}`. -/
structure RawCommit where
  sha : String
  raw : String
deriving DecidableEq, Repr

/-- The hardcoded commit list `REPO_COMMITS` from the workflow file. -/
def REPO_COMMITS : List RawCommit :=
  [ ⟨"f59ffed", "updated stuff"⟩,
    ⟨"c300d63", "added static worker ID logic for redis db caching"⟩,
    ⟨"718bf11", "removed Redis KEY logic"⟩,
    ⟨"efc056f", "adding some load testing"⟩,
    ⟨"34deabf", "added testing and password hash optimization"⟩,
    ⟨"3583104", "new database migration added"⟩,
    ⟨"cfab29e", "added new caching logic to optimize response time for chat experience"⟩,
    ⟨"a23ebf4", "oauth implementation"⟩,
    ⟨"c41a2b0", "fixed google oauth"⟩,
    ⟨"d5f451b", "big commit with heaps of changes (notification module)"⟩,
    ⟨"dd8c5a2", "Add load tests for simulation module"⟩,
    ⟨"9f130dd", "Merge PR #240: Optimize Database Connections & Queries"⟩ ]

/-! ### Commit parser (`parseCommitsStep`, lines 55-64)

The step runs
`lines[0].match(/commits?\s+([a-f0-9]+)\.\.([a-f0-9]+)/i)` and builds
`instructions` from the remaining lines.  The regular expression is
embedded as a deterministic matcher: each quantified class in the pattern
(`\s+`, `[a-f0-9]+`) is disjoint from the character that must follow it,
so the greedy match never backtracks, and the optional `s` can always be
consumed when present (the alternative would require whitespace at a
letter `s`, which fails). -/

/-- Lower-case an ASCII letter, used for case-insensitive (`/i`) matching. -/
def charLower (c : Char) : Char :=
  if 'A' ≤ c && c ≤ 'Z' then Char.ofNat (c.toNat + 32) else c

/-- Case-insensitive character comparison (`/i` flag). -/
def charEqCI (a b : Char) : Bool := charLower a = charLower b

/-- Match a literal pattern case-insensitively at the start of the text,
returning the rest of the text on success. -/
def matchLitCI : List Char → List Char → Option (List Char)
  | [], cs => some cs
  | _ :: _, [] => none
  | p :: ps, c :: cs => if charEqCI p c then matchLitCI ps cs else none

/-- The character class of JavaScript `\s` (also the class trimmed by
`String.prototype.trim`). -/
def isJsSpace (c : Char) : Bool :=
  c = ' ' || c = '\t' || c = '\n' || c = '\r' ||
  c = Char.ofNat 0x0b || c = Char.ofNat 0x0c ||
  c = Char.ofNat 0xa0 || c = Char.ofNat 0x1680 ||
  (Char.ofNat 0x2000 ≤ c && c ≤ Char.ofNat 0x200a) ||
  c = Char.ofNat 0x2028 || c = Char.ofNat 0x2029 ||
  c = Char.ofNat 0x202f || c = Char.ofNat 0x205f ||
  c = Char.ofNat 0x3000 || c = Char.ofNat 0xfeff

/-- The character class `[a-f0-9]` under the `/i` flag (so `A-F` as well). -/
def isHexCI (c : Char) : Bool :=
  ('0' ≤ c && c ≤ '9') || ('a' ≤ c && c ≤ 'f') || ('A' ≤ c && c ≤ 'F')

/-- Try to match `commits?\s+([a-f0-9]+)\.\.([a-f0-9]+)` (case-insensitive)
at the start of the given text; on success return the two captures. -/
def matchCommitAt (cs : List Char) : Option (List Char × List Char) :=
  match matchLitCI "commit".toList cs with
  | none => none
  | some rest0 =>
    let rest1 :=
      match rest0 with
      | c :: cs1 => if charEqCI 's' c then cs1 else rest0
      | [] => rest0
    let ws := rest1.takeWhile isJsSpace
    let rest2 := rest1.dropWhile isJsSpace
    if ws.isEmpty then none else
    let h1 := rest2.takeWhile isHexCI
    let rest3 := rest2.dropWhile isHexCI
    if h1.isEmpty then none else
    match rest3 with
    | '.' :: '.' :: rest4 =>
      let h2 := rest4.takeWhile isHexCI
      if h2.isEmpty then none else some (h1, h2)
    | _ => none

/-- Embedding of `line.match(re)` for the commit-range pattern: scan start positions
left to right, returning the captures of the leftmost match. -/
def findRefMatch : List Char → Option (List Char × List Char)
  | [] => none
  | c :: cs =>
    match matchCommitAt (c :: cs) with
    | some r => some r
    | none => findRefMatch cs

/-- Embedding of `query.split("\n")` (JavaScript semantics: the empty string splits to
a single empty line, so the result is always non-empty). -/
def splitLines : List Char → List (List Char)
  | [] => [[]]
  | c :: cs =>
    let r := splitLines cs
    if c = '\n' then [] :: r
    else
      match r with
      | [] => [[c]]
      | l :: ls => (c :: l) :: ls

/-- Embedding of `lines.join("\n")`. -/
def joinNL : List (List Char) → List Char
  | [] => []
  | [l] => l
  | l :: ls => l ++ '\n' :: joinNL ls

/-- Embedding of `.replace(/^Additional instructions:\s*/i, "")`: strip the label, and
the whitespace after it, when it occurs at the very start. -/
def stripInstrLabel (cs : List Char) : List Char :=
  match matchLitCI "Additional instructions:".toList cs with
  | some rest => rest.dropWhile isJsSpace
  | none => cs

/-- Embedding of `.trim()`: drop whitespace from both ends. -/
def jsTrim (cs : List Char) : List Char :=
  ((cs.dropWhile isJsSpace).reverse.dropWhile isJsSpace).reverse

/-- The deterministic output of `parseCommitsStep` before the classifier
call: `{fromRef, toRef, instructions}`. -/
structure ParsedQuery where
  fromRef : String
  toRef : String
  instructions : String
deriving DecidableEq, Repr

/-- The instructions string: lines from index 1 on, joined with newlines,
stripped of the optional leading label, then trimmed. -/
def instructionsOf (lines : List (List Char)) : String :=
  String.mk (jsTrim (stripInstrLabel (joinNL (lines.drop 1))))

/-- The parsing part of `parseCommitsStep.execute` (lines 56-64 of the
workflow file). -/
def parseRefs (query : String) : ParsedQuery :=
  let lines := splitLines query.toList
  let firstLine := lines.headD []
  let instructions := instructionsOf lines
  match findRefMatch firstLine with
  | some (a, b) => ⟨String.mk a, String.mk b, instructions⟩
  | none => ⟨"HEAD~12", "HEAD", instructions⟩

/-- The step `parseCommitsStep` submits the fixed `REPO_COMMITS` list to the
classifier (the prompt interpolates `REPO_COMMITS`, not the parsed
range); the classifier is an external collaborator, taken as an oracle. -/
def parseCommitsStep (classifier : List RawCommit → List ClassifiedCommit)
    (query : String) : ParsedQuery × List ClassifiedCommit :=
  (parseRefs query, classifier REPO_COMMITS)

/-- The commit list handed to the classification call for a given query:
always `REPO_COMMITS`, by the prompt construction at line 81. -/
def classifierSubmission (_query : String) : List RawCommit := REPO_COMMITS

/-! ### Categorizer (`categorizeStep`, lines 114-135) -/

/-- The enum `z.enum(["major","minor","patch"])`. -/
inductive VersionBump where
  | major | minor | patch
deriving DecidableEq, Repr

/-- Output of `categorizeStep`. -/
structure CategorizedBatch where
  fromRef : String
  toRef : String
  instructions : String
  features : List ClassifiedCommit
  fixes : List ClassifiedCommit
  performance : List ClassifiedCommit
  maintenance : List ClassifiedCommit
  versionBump : VersionBump
  suggestedVersion : String
deriving DecidableEq, Repr

/-- Embedding of `categorizeStep.execute`: bucket the commits with four filters,
compute the bump from `hasBreaking` and `features.length`, and look the
suggested version up from the bump. -/
def categorize (fromRef toRef instructions : String)
    (commits : List ClassifiedCommit) : CategorizedBatch :=
  let features := commits.filter (fun c => c.type == CommitType.feat)
  let fixes := commits.filter (fun c => c.type == CommitType.fix)
  let performance := commits.filter (fun c => c.type == CommitType.perf)
  let maintenance := commits.filter (fun c =>
    [CommitType.chore, CommitType.docs, CommitType.refactor,
     CommitType.test].contains c.type)
  let hasBreaking := commits.any (fun c => c.breaking)
  let versionBump : VersionBump :=
    if hasBreaking then .major
    else if features.length > 0 then .minor
    else .patch
  let suggestedVersion :=
    match versionBump with
    | .major => "v3.0.0"
    | .minor => "v2.1.0"
    | .patch => "v2.0.1"
  { fromRef, toRef, instructions,
    features, fixes, performance, maintenance,
    versionBump, suggestedVersion }

/-! ### Feature enrichment (`enrichFeaturesStep`, lines 158-178)

The step returns early with an empty list when the features bucket is
empty; otherwise it makes one `generateObject` call.  The external call
is an oracle parameter and the second component of the result counts how
many such calls the step made. -/

/-- The `enrichedCommitSchema` record: `{sha, type, title, description, breaking}`. -/
structure EnrichedCommit where
  sha : String
  type : String
  title : String
  description : String
  breaking : Bool
deriving DecidableEq, Repr

/-- Embedding of `enrichFeaturesStep.execute`, with the text-generation collaborator as
an oracle; the `Nat` is the number of external calls made. -/
def enrichFeaturesStep
    (oracle : List ClassifiedCommit → List EnrichedCommit)
    (input : CategorizedBatch) : List EnrichedCommit × Nat :=
  if input.features.length = 0 then ([], 0)
  else (oracle input.features, 1)

/-! ### Drafter (`draftStep`, lines 268-322)

The `generateObject` call of the drafter returns an arbitrary collaborator
value which is validated against the zod shape
`{draft: string, version: string, isComplete: boolean,
suggestions: string[]}` and then returned unchanged.  The collaborator
response is modelled as a JSON value and the zod validation as a parse
into the `Draft` shape. -/

/-- A JSON value, the type of an unvalidated collaborator response. -/
inductive JsonValue where
  | str : String → JsonValue
  | num : Int → JsonValue
  | bool : Bool → JsonValue
  | null
  | arr : List JsonValue → JsonValue
  | obj : List (String × JsonValue) → JsonValue

/-- Look a field up in a JSON object body. -/
def lookupField : List (String × JsonValue) → String → Option JsonValue
  | [], _ => none
  | (k, v) :: rest, key => if k = key then some v else lookupField rest key

/-- The check `z.array(z.string())`: succeed only when every element is a string. -/
def parseStringList : List JsonValue → Option (List String)
  | [] => some []
  | .str s :: rest => (parseStringList rest).map (fun ss => s :: ss)
  | _ => none

/-- The draft record `{draft, version, isComplete, suggestions}` produced
by `draftStep` and consumed by the quality gate. -/
structure Draft where
  draft : String
  version : String
  isComplete : Bool
  suggestions : List String
deriving DecidableEq, Repr

/-- The zod output schema of `draftStep`
(`z.object({draft: z.string(), version: z.string(),
isComplete: z.boolean(), suggestions: z.array(z.string())})`) applied to
a collaborator response. -/
def draftOutputSchemaParse (v : JsonValue) : Option Draft :=
  match v with
  | .obj fields =>
    match lookupField fields "draft", lookupField fields "version",
          lookupField fields "isComplete",
          lookupField fields "suggestions" with
    | some (.str d), some (.str ver), some (.bool ic), some (.arr sug) =>
      (parseStringList sug).map (fun ss =>
        { draft := d, version := ver, isComplete := ic, suggestions := ss })
    | _, _, _, _ => none
  | _ => none

/-- Embedding of `draftStep.execute` after prompt construction: validate the
collaborator response against the schema and return it unchanged
(`return object;`). -/
def draftStep (collaboratorResponse : JsonValue) : Option Draft :=
  draftOutputSchemaParse collaboratorResponse

/-- Build the well-shaped JSON object for a draft record. -/
def mkDraftJson (d ver : String) (ic : Bool) (ss : List String) : JsonValue :=
  .obj [("draft", .str d), ("version", .str ver), ("isComplete", .bool ic),
        ("suggestions", .arr (ss.map JsonValue.str))]

/-! ### Quality gate, refiner, pass-through, finalizer (lines 325-450) -/

/-- The two steps of the `.branch` at lines 445-448. -/
inductive GateStep where
  | refineNotes | passThrough
deriving DecidableEq, Repr

/-- The branch conditions:
`!inputData.isComplete` selects `refine-notes`,
`inputData.isComplete` selects `pass-through`. -/
def branchCond (d : Draft) : GateStep → Bool
  | .refineNotes => !d.isComplete
  | .passThrough => d.isComplete

/-- The steps the `.branch` combinator executes for a given draft: every
listed step whose condition evaluates to true. -/
def executedSteps (d : Draft) : List GateStep :=
  [GateStep.refineNotes, GateStep.passThrough].filter (branchCond d)

/-- Output shape of both gate branches:
`{draft, version, refined}` (with `refined` a literal per branch). -/
structure BranchOut where
  draft : String
  version : String
  refined : Bool
deriving DecidableEq, Repr

/-- Embedding of `passThroughStep.execute`: forward the draft, `refined: false`. -/
def passThroughStep (d : Draft) : BranchOut :=
  { draft := d.draft, version := d.version, refined := false }

/-- The prompt `refineStep` sends to `generateText`, built from the draft
and its numbered suggestions. -/
def refinePrompt (d : Draft) : String :=
  "Improve these release notes by addressing each suggestion below.\n" ++
  "Keep the same Markdown format and version header. " ++
  "Return only the improved release notes.\n\n" ++
  "Current release notes:\n" ++ d.draft ++ "\n\n" ++
  "Suggestions to address:\n" ++
  String.intercalate "\n"
    (d.suggestions.enum.map (fun p => toString (p.1 + 1) ++ ". " ++ p.2))

/-- Embedding of `refineStep.execute`: the generated text becomes the draft,
`refined: true`; the text generator is an oracle on the prompt. -/
def refineStep (gen : String → String) (d : Draft) : BranchOut :=
  { draft := gen (refinePrompt d), version := d.version, refined := true }

/-- Run the quality-gate branch: the `finalizeStep` input object, with
the `pass-through` and `refine-notes` keys each populated exactly when
the corresponding condition held. -/
def runGate (gen : String → String) (d : Draft) :
    Option BranchOut × Option BranchOut :=
  ( if branchCond d .passThrough then some (passThroughStep d) else none,
    if branchCond d .refineNotes then some (refineStep gen d) else none )

/-- The shape `z.object({result, version, refined})`: the terminal payload. -/
structure FinalResult where
  result : String
  version : String
  refined : Bool
deriving DecidableEq, Repr

/-- Embedding of `finalizeStep.execute`:
`data = inputData["pass-through"] ?? inputData["refine-notes"]`, then
each field falls back to its placeholder when `data` is absent. -/
def finalizeStep (passOut refineOut : Option BranchOut) : FinalResult :=
  let data := passOut.orElse (fun _ => refineOut)
  { result := (data.map (fun b => b.draft)).getD
      "## Release Notes\n\nNo content generated.",
    version := (data.map (fun b => b.version)).getD "unknown",
    refined := (data.map (fun b => b.refined)).getD false }

/-- The tail of the workflow: draft → quality-gate branch → finalize. -/
def gateAndFinalize (gen : String → String) (d : Draft) : FinalResult :=
  let outs := runGate gen d
  finalizeStep outs.1 outs.2

/-! ### HTTP endpoint (`server.ts`, `app.post("/api/query")`)

`const { commitLog } = req.body;
if (!commitLog || typeof commitLog !== "string") → 400`.
A missing field destructures to `undefined`, which is falsy; an empty
string is also falsy; any non-string value fails the `typeof` test. -/

/-- JavaScript truthiness of a JSON value (`undefined`, i.e. a missing
field, is handled by the caller). -/
def jsTruthy : JsonValue → Bool
  | .str s => !(s = "")
  | .num n => !(n = 0)
  | .bool b => b
  | .null => false
  | .arr _ => true
  | .obj _ => true

/-- The test `typeof v === "string"`. -/
def jsIsString : JsonValue → Bool
  | .str _ => true
  | _ => false

/-- Outcome of one request to `POST /api/query`: HTTP status, response
body, and whether the workflow run was started. -/
structure RequestOutcome where
  status : Nat
  body : JsonValue
  pipelineStarted : Bool

/-- The `POST /api/query` handler, with the workflow run as an oracle
from the `commitLog` string to the response payload. -/
def postApiQuery (pipeline : String → JsonValue)
    (body : List (String × JsonValue)) : RequestOutcome :=
  match lookupField body "commitLog" with
  | none =>
    { status := 400, body := .obj [("error", .str "commitLog is required")],
      pipelineStarted := false }
  | some v =>
    if !jsTruthy v || !jsIsString v then
      { status := 400, body := .obj [("error", .str "commitLog is required")],
        pipelineStarted := false }
    else
      match v with
      | .str s => { status := 200, body := pipeline s, pipelineStarted := true }
      | _ =>
        { status := 400,
          body := .obj [("error", .str "commitLog is required")],
          pipelineStarted := false }

/-! ### Concrete values used to instantiate the theorems -/

/-- A categorized batch with an empty features bucket (categorizing an
empty commit list). -/
def emptyBatch : CategorizedBatch := categorize "HEAD~12" "HEAD" "" []

/-- A well-shaped collaborator response whose `isComplete` is `true`
while `suggestions` is non-empty. -/
def badDraftJson : JsonValue :=
  mkDraftJson "## v2.1.0 — December 2025" "v2.1.0" true
    ["Add more detail to the maintenance section"]

/-- The draft record `badDraftJson` parses to. -/
def badDraft : Draft :=
  { draft := "## v2.1.0 — December 2025", version := "v2.1.0",
    isComplete := true,
    suggestions := ["Add more detail to the maintenance section"] }

/-- The 400 response of the endpoint. -/
def commitLogRequired : RequestOutcome :=
  { status := 400,
    body := .obj [("error", .str "commitLog is required")],
    pipelineStarted := false }

/-! ## Theorems -/

/-! ### Helper lemmas about the categorizer -/

theorem featFilter_pos (commits : List ClassifiedCommit) :
    (0 < (commits.filter (fun c => c.type == CommitType.feat)).length)
      ↔ ∃ c ∈ commits, c.type = CommitType.feat := by
  rw [List.length_pos]
  simp [ne_eq, List.filter_eq_nil_iff]

theorem maintenancePred_eq :
    (fun (c : ClassifiedCommit) =>
      [CommitType.chore, CommitType.docs, CommitType.refactor,
       CommitType.test].contains c.type)
    = (fun (c : ClassifiedCommit) =>
        c.type == CommitType.chore || c.type == CommitType.docs ||
        c.type == CommitType.refactor || c.type == CommitType.test) := by
  funext c
  rcases c with ⟨sha, t, msg, br⟩
  cases t <;> rfl

theorem bucket_length_sum (commits : List ClassifiedCommit) :
    (commits.filter (fun c => c.type == CommitType.feat)).length
  + (commits.filter (fun c => c.type == CommitType.fix)).length
  + (commits.filter (fun c => c.type == CommitType.perf)).length
  + (commits.filter (fun c =>
      [CommitType.chore, CommitType.docs, CommitType.refactor,
       CommitType.test].contains c.type)).length
  = commits.length := by
  rw [maintenancePred_eq]
  induction commits with
  | nil => rfl
  | cons c cs ih =>
    rcases c with ⟨sha, t, msg, br⟩
    cases t <;> simp [List.filter_cons] at ih ⊢ <;> omega

theorem mem_categorize_features (fr tr ins : String)
    (commits : List ClassifiedCommit) (c : ClassifiedCommit) :
    c ∈ (categorize fr tr ins commits).features
      ↔ c ∈ commits ∧ c.type = CommitType.feat := by
  simp [categorize, List.mem_filter]

theorem mem_categorize_fixes (fr tr ins : String)
    (commits : List ClassifiedCommit) (c : ClassifiedCommit) :
    c ∈ (categorize fr tr ins commits).fixes
      ↔ c ∈ commits ∧ c.type = CommitType.fix := by
  simp [categorize, List.mem_filter]

theorem mem_categorize_performance (fr tr ins : String)
    (commits : List ClassifiedCommit) (c : ClassifiedCommit) :
    c ∈ (categorize fr tr ins commits).performance
      ↔ c ∈ commits ∧ c.type = CommitType.perf := by
  simp [categorize, List.mem_filter]

theorem mem_categorize_maintenance (fr tr ins : String)
    (commits : List ClassifiedCommit) (c : ClassifiedCommit) :
    c ∈ (categorize fr tr ins commits).maintenance
      ↔ c ∈ commits ∧ (c.type = CommitType.chore ∨ c.type = CommitType.docs
          ∨ c.type = CommitType.refactor ∨ c.type = CommitType.test) := by
  simp [categorize, List.mem_filter]

/-- C2: the categorizer computes `versionBump` as major when some commit
is breaking, else minor when some commit has type `feat`, else patch; and
`suggestedVersion` is the fixed lookup from the bump
(`major → v3.0.0`, `minor → v2.1.0`, `patch → v2.0.1`). -/
theorem versionBump_spec (fr tr ins : String)
    (commits : List ClassifiedCommit) :
    ((categorize fr tr ins commits).versionBump = VersionBump.major
        ↔ ∃ c ∈ commits, c.breaking = true)
    ∧ ((categorize fr tr ins commits).versionBump = VersionBump.minor
        ↔ ¬(∃ c ∈ commits, c.breaking = true)
          ∧ ∃ c ∈ commits, c.type = CommitType.feat)
    ∧ ((categorize fr tr ins commits).versionBump = VersionBump.patch
        ↔ ¬(∃ c ∈ commits, c.breaking = true)
          ∧ ¬∃ c ∈ commits, c.type = CommitType.feat)
    ∧ ((categorize fr tr ins commits).suggestedVersion = "v3.0.0"
        ↔ (categorize fr tr ins commits).versionBump = VersionBump.major)
    ∧ ((categorize fr tr ins commits).suggestedVersion = "v2.1.0"
        ↔ (categorize fr tr ins commits).versionBump = VersionBump.minor)
    ∧ ((categorize fr tr ins commits).suggestedVersion = "v2.0.1"
        ↔ (categorize fr tr ins commits).versionBump = VersionBump.patch) := by
  by_cases hb : commits.any (fun c => c.breaking) = true
  · have hb2 : ∃ c ∈ commits, c.breaking = true := by
      simpa [List.any_eq_true] using hb
    have hvb : (categorize fr tr ins commits).versionBump = VersionBump.major := by
      simp [categorize, hb]
    have hsv : (categorize fr tr ins commits).suggestedVersion = "v3.0.0" := by
      simp [categorize, hb]
    rw [hvb, hsv]
    simp [hb2]
  · have hb2 : ¬∃ c ∈ commits, c.breaking = true := by
      simpa [List.any_eq_true] using hb
    by_cases hf : 0 < (commits.filter (fun c => c.type == CommitType.feat)).length
    · have hf2 : ∃ c ∈ commits, c.type = CommitType.feat :=
        (featFilter_pos commits).mp hf
      have hvb : (categorize fr tr ins commits).versionBump = VersionBump.minor := by
        simp [categorize, hb, hf]
      have hsv : (categorize fr tr ins commits).suggestedVersion = "v2.1.0" := by
        simp [categorize, hb, hf]
      rw [hvb, hsv]
      simp [hb2, hf2]
    · have hf2 : ¬∃ c ∈ commits, c.type = CommitType.feat :=
        fun h => hf ((featFilter_pos commits).mpr h)
      have hvb : (categorize fr tr ins commits).versionBump = VersionBump.patch := by
        simp [categorize, hb, hf]
      have hsv : (categorize fr tr ins commits).suggestedVersion = "v2.0.1" := by
        simp [categorize, hb, hf]
      rw [hvb, hsv]
      simp [hb2, hf2]

/-- C3: the four output buckets of the categorizer form a total, disjoint
partition of the input — the bucket lengths sum to the input length, a
commit is in a bucket exactly when it is an input commit of the matching
type, every value lies in as many buckets as it has occurrences charged
to exactly one bucket, and each bucket is a sublist of the input (order
preserved). -/
theorem categorize_partition (fr tr ins : String)
    (commits : List ClassifiedCommit) :
    ((categorize fr tr ins commits).features.length
      + (categorize fr tr ins commits).fixes.length
      + (categorize fr tr ins commits).performance.length
      + (categorize fr tr ins commits).maintenance.length
      = commits.length)
    ∧ (∀ c, c ∈ (categorize fr tr ins commits).features
        ↔ c ∈ commits ∧ c.type = CommitType.feat)
    ∧ (∀ c, c ∈ (categorize fr tr ins commits).fixes
        ↔ c ∈ commits ∧ c.type = CommitType.fix)
    ∧ (∀ c, c ∈ (categorize fr tr ins commits).performance
        ↔ c ∈ commits ∧ c.type = CommitType.perf)
    ∧ (∀ c, c ∈ (categorize fr tr ins commits).maintenance
        ↔ c ∈ commits ∧ (c.type = CommitType.chore ∨ c.type = CommitType.docs
            ∨ c.type = CommitType.refactor ∨ c.type = CommitType.test))
    ∧ (∀ c, ((if c ∈ (categorize fr tr ins commits).features then 1 else 0)
        + (if c ∈ (categorize fr tr ins commits).fixes then 1 else 0)
        + (if c ∈ (categorize fr tr ins commits).performance then 1 else 0)
        + (if c ∈ (categorize fr tr ins commits).maintenance then 1 else 0)
          : Nat)
        = (if c ∈ commits then 1 else 0))
    ∧ ((categorize fr tr ins commits).features).Sublist commits
    ∧ ((categorize fr tr ins commits).fixes).Sublist commits
    ∧ ((categorize fr tr ins commits).performance).Sublist commits
    ∧ ((categorize fr tr ins commits).maintenance).Sublist commits := by
  refine ⟨bucket_length_sum commits,
    mem_categorize_features fr tr ins commits,
    mem_categorize_fixes fr tr ins commits,
    mem_categorize_performance fr tr ins commits,
    mem_categorize_maintenance fr tr ins commits,
    ?_, ?_, ?_, ?_, ?_⟩
  · intro c
    by_cases hc : c ∈ commits
    · rcases ht : c.type <;> simp [categorize, List.mem_filter, hc, ht]
    · simp [categorize, List.mem_filter, hc]
  · simp only [categorize]
    exact List.filter_sublist commits
  · simp only [categorize]
    exact List.filter_sublist commits
  · simp only [categorize]
    exact List.filter_sublist commits
  · simp only [categorize]
    exact List.filter_sublist commits

/-- C4: the commit parser extracts `fromRef`/`toRef` as the two captures
of the case-insensitive `commits? <hex>..<hex>` pattern matched on the
first line, defaulting to `HEAD~12`/`HEAD` when the pattern is absent;
`instructions` is the remaining lines joined, stripped of the optional
leading label and surrounding whitespace; the parser is total.  Checked
on the spec scenarios: an explicit range, no range, instructions present,
uppercase hex with uppercase keyword, a range not at the start of the
line, and a range on the second line (ignored, landing in
`instructions`). -/
theorem parser_spec (q : String) :
    (parseRefs q =
      match findRefMatch ((splitLines q.toList).headD []) with
      | some (a, b) =>
        ⟨String.mk a, String.mk b, instructionsOf (splitLines q.toList)⟩
      | none => ⟨"HEAD~12", "HEAD", instructionsOf (splitLines q.toList)⟩)
    ∧ parseRefs "commits f59ffed..9f130dd" = ⟨"f59ffed", "9f130dd", ""⟩
    ∧ parseRefs "Generate release notes for this sprint"
        = ⟨"HEAD~12", "HEAD", ""⟩
    ∧ (parseRefs
        "commits f59ffed..9f130dd\nAdditional instructions: focus on OAuth")
        = ⟨"f59ffed", "9f130dd", "focus on OAuth"⟩
    ∧ parseRefs "COMMIT AB12..F9" = ⟨"AB12", "F9", ""⟩
    ∧ parseRefs "please use commits abc..def here"
        = ⟨"abc", "def", ""⟩
    ∧ parseRefs "hello\ncommits abc..def"
        = ⟨"HEAD~12", "HEAD", "commits abc..def"⟩ :=
  ⟨rfl, by decide, by decide, by decide, by decide, by decide, by decide⟩

/-- C1: for every draft reaching the quality gate, exactly one of the two
branch steps executes — `refine-notes` exactly when `isComplete` is
false, `pass-through` exactly when `isComplete` is true; never both and
never neither. -/
theorem quality_gate_exclusive (d : Draft) :
    (executedSteps d).length = 1
    ∧ (GateStep.refineNotes ∈ executedSteps d ↔ d.isComplete = false)
    ∧ (GateStep.passThrough ∈ executedSteps d ↔ d.isComplete = true) := by
  cases h : d.isComplete <;> simp [executedSteps, branchCond, h]

/-- C5: the `refined` flag of the finalizer result is true exactly when
the refiner branch executed on that run. -/
theorem refined_iff_refiner_ran (gen : String → String) (d : Draft) :
    ((gateAndFinalize gen d).refined = true
      ↔ GateStep.refineNotes ∈ executedSteps d) := by
  cases h : d.isComplete <;>
    simp [gateAndFinalize, runGate, finalizeStep, passThroughStep, refineStep,
      executedSteps, branchCond, h, Option.orElse]

/-- C7: when the features bucket is empty, the feature-enrichment step
returns an empty list and makes no external call. -/
theorem enrichFeatures_empty_no_call
    (oracle : List ClassifiedCommit → List EnrichedCommit)
    (input : CategorizedBatch) (h : input.features = []) :
    enrichFeaturesStep oracle input = ([], 0) := by
  simp [enrichFeaturesStep, h]

/-- Witness for C7: the empty batch has an empty features bucket and the
step returns no entries and makes zero calls on it. -/
theorem enrichFeatures_empty_no_call_witness :
    emptyBatch.features = []
    ∧ enrichFeaturesStep (fun _ => []) emptyBatch = ([], 0) :=
  ⟨rfl, enrichFeatures_empty_no_call (fun _ => []) emptyBatch rfl⟩

/-- C8: when neither gate branch supplied an output, the finalizer falls
back to the fixed placeholder document, version `"unknown"`, and
`refined = false`, rather than failing. -/
theorem finalize_fallback :
    finalizeStep none none =
      { result := "## Release Notes\n\nNo content generated.",
        version := "unknown", refined := false } := rfl

/-- C10: the commit list submitted to the classification call is the
fixed 12-element `REPO_COMMITS` constant, independent of the query: two
runs with different queries classify identical commit sets. -/
theorem classifier_input_fixed
    (classifier : List RawCommit → List ClassifiedCommit) (q1 q2 : String) :
    classifierSubmission q1 = REPO_COMMITS
    ∧ REPO_COMMITS.length = 12
    ∧ (parseCommitsStep classifier q1).2 = (parseCommitsStep classifier q2).2 :=
  ⟨rfl, rfl, rfl⟩

/-- Helper: a list of string-shaped JSON values parses to its payloads. -/
theorem parseStringList_map_str (ss : List String) :
    parseStringList (ss.map JsonValue.str) = some ss := by
  induction ss with
  | nil => rfl
  | cons s rest ih => simp [parseStringList, ih]

/-- C6 counterexample: a well-shaped collaborator response with
`isComplete = true` and non-empty `suggestions` is accepted by the
drafter schema validation and returned unchanged, so the claimed
invariant fails on the code. -/
theorem draft_invariant_counterexample :
    draftStep badDraftJson = some badDraft
    ∧ ¬(badDraft.suggestions = [] ↔ badDraft.isComplete = true) := by
  exact ⟨rfl, by decide⟩

/-- C6 amended: the drafter validates the collaborator response only
against the shape schema (strings, boolean, string array) and forwards it
unchanged; no relation between `suggestions` and `isComplete` is
enforced — every combination is accepted. -/
theorem draft_shape_only (d ver : String) (ic : Bool) (ss : List String) :
    draftStep (mkDraftJson d ver ic ss)
      = some { draft := d, version := ver, isComplete := ic,
               suggestions := ss } := by
  simp [draftStep, mkDraftJson, draftOutputSchemaParse, lookupField,
    parseStringList_map_str]

/-- C9: a request whose body lacks `commitLog` or carries a non-string
`commitLog` gets HTTP 400 with body `{error: "commitLog is required"}`,
and the workflow run never starts. -/
theorem missing_commitLog_400 (pipeline : String → JsonValue)
    (body : List (String × JsonValue))
    (h : lookupField body "commitLog" = none
        ∨ ∃ v, lookupField body "commitLog" = some v ∧ jsIsString v = false) :
    postApiQuery pipeline body = commitLogRequired := by
  rcases h with h | ⟨v, hv, hs⟩
  · simp [postApiQuery, h, commitLogRequired]
  · cases v <;> simp_all [postApiQuery, jsIsString, jsTruthy, commitLogRequired]

/-- Witness for C9: the empty body lacks `commitLog` and is answered with
the 400 outcome. -/
theorem missing_commitLog_400_witness :
    postApiQuery (fun _ => JsonValue.null) [] = commitLogRequired :=
  missing_commitLog_400 (fun _ => JsonValue.null) [] (Or.inl rfl)

end ReleaseNotes
